import Mathlib

/-!
Shallow embedding of `src/guard/src/commands/validate/summary_table.rs`
(cloudformation-guard): the summary-table reporter that classifies rule
evaluation results into SKIP/PASS/FAIL groups and renders them as aligned
text lines, together with proofs of its specified properties.

Writes to the output sink are modelled explicitly: a sink decides, per
write attempt, whether the write succeeds, so that the error-propagation
behaviour of the `writeln!` calls (with and without the `?` operator) is
captured faithfully.
-/

namespace Guard

/-- Rule evaluation status (`crate::rules::Status`), as used by the
summary table. -/
inductive Status where
  | PASS
  | FAIL
  | SKIP
deriving DecidableEq, Repr

/-- Modelled from the spec: `common::colored_string` lives in
`validate/common.rs`, which is not among the provided sources. Per the
spec it renders an `Option<Status>` as display text, an absent status
rendering as "unknown"; terminal coloring is a declared non-goal and is
modelled as plain text. -/
def colored_string : Option Status → String
  | some Status.PASS => "PASS"
  | some Status.FAIL => "FAIL"
  | some Status.SKIP => "SKIP"
  | none => "unknown"

/-- The two fields of `tracker::StatusContext` that the summary table
reads: the context (rule name) and its optional status. -/
structure StatusContext where
  context : String
  status : Option Status
deriving DecidableEq, Repr

/-- The fields of `rules::NamedStatus` that the summary table reads
(the `..` pattern in the source discards the rest). -/
structure NamedStatus where
  name : String
  status : Status
deriving DecidableEq, Repr

/-- `rules::RecordType`: only the `RuleCheck` variant is examined by the
summary table; every other variant is collapsed into `OtherRecord`. -/
inductive RecordType where
  | RuleCheck (ns : NamedStatus)
  | OtherRecord
deriving DecidableEq, Repr

/-- `rules::eval_context::EventRecord`: a trace node with a context
string, an optional record payload, and ordered children. -/
inductive EventRecord where
  | mk (context : String) (container : Option RecordType)
      (children : List EventRecord)

/-- The optional record payload of a trace node. -/
def EventRecord.container : EventRecord → Option RecordType
  | EventRecord.mk _ c _ => c

/-- The ordered children of a trace node. -/
def EventRecord.children : EventRecord → List EventRecord
  | EventRecord.mk _ _ cs => cs

/-- The three summary categories (`SummaryType`, a bitflags enum in the
source). -/
inductive SummaryType where
  | PASS
  | FAIL
  | SKIP
deriving DecidableEq, Repr

/-- `BitFlags<SummaryType>`: a set over the three categories, modelled
as one independent bit per flag. -/
structure SummaryFlags where
  pass : Bool
  fail : Bool
  skip : Bool
deriving DecidableEq, Repr

/-- `BitFlags::contains`: membership test for one category. -/
def SummaryFlags.contains (f : SummaryFlags) : SummaryType → Bool
  | SummaryType.PASS => f.pass
  | SummaryType.FAIL => f.fail
  | SummaryType.SKIP => f.skip

/-- The `SummaryTable` reporter: rules-source label, data-source label
and the category selector, fixed at construction. -/
structure SummaryTable where
  rules_file_name : String
  data_file_name : String
  summary_type : SummaryFlags
deriving DecidableEq, Repr

/-- One output line, mirroring the four `writeln!` format strings of the
source: the overall-status header, a (bolded) group header, one entry
line, and the trailing separator. Bolding is terminal styling, a
declared non-goal, and is not modelled. -/
inductive Line where
  | statusLine (dataFileName statusText : String)
  | headerLine (title : String)
  | entryLine (rulesFileName paddedContext statusText : String)
  | sepLine
deriving DecidableEq, Repr, BEq

/-- The text of a line, exactly as the `writeln!` format strings produce
it (`{} Status = {}`, `{}`, `{}/{}{}`, `---`). -/
def Line.render : Line → String
  | Line.statusLine d s => d ++ " Status = " ++ s
  | Line.headerLine t => t
  | Line.entryLine f c s => f ++ "/" ++ c ++ s
  | Line.sepLine => "---"

/-- An output sink: decides, for each write attempt (numbered from 0),
whether that write succeeds. -/
abbrev Sink := Nat → Bool

/-- Writer state: how many writes have been attempted, and the lines
successfully written so far. -/
structure WState where
  attempted : Nat
  written : List Line
deriving DecidableEq, Repr

/-- One `writeln!` call: the sink decides whether this attempt succeeds;
either way the attempt is consumed. The returned flag is the `Ok`/`Err`
result of the macro. -/
def writeln (sink : Sink) (l : Line) (st : WState) : WState × Bool :=
  if sink st.attempted
  then (⟨st.attempted + 1, st.written ++ [l]⟩, true)
  else (⟨st.attempted + 1, st.written⟩, false)

/-- Right-pad with spaces to the given width, as the Rust format
specifier `{:<w}` does; a longer string is left untouched. -/
def padRight (s : String) (w : Nat) : String :=
  s ++ String.mk (List.replicate (w - s.length) ' ')

/-- The entry line `print_partition` writes for one `StatusContext`:
`{filename}/{context:<longest+4}{status}`. -/
def entryOf (rules_file_name : String) (longest : Nat) (c : StatusContext) : Line :=
  Line.entryLine rules_file_name (padRight c.context (longest + 4))
    (colored_string c.status)

/-- `print_partition`: writes one line per entry, in order, propagating
the first write failure (`?` on each `writeln!`). -/
def print_partition (sink : Sink) (rules_file_name : String)
    (part : List StatusContext) (longest : Nat) (st : WState) : WState × Bool :=
  match part with
  | [] => (st, true)
  | c :: rest =>
    let r := writeln sink (entryOf rules_file_name longest c) st
    if r.2 then print_partition sink rules_file_name rest longest r.1
    else (r.1, false)

/-- Trace-mode groups are `indexmap::IndexMap<&str, Status>`; modelled
as an insertion-ordered association list. -/
abbrev IndexMapSS := List (String × Status)

/-- `IndexMap::insert`: an existing key keeps its position and gets the
new value; a new key is appended. -/
def imInsert (m : IndexMapSS) (k : String) (v : Status) : IndexMapSS :=
  if (List.any m fun p => p.1 == k)
  then List.map (fun p => if p.1 == k then (k, v) else p) m
  else m ++ [(k, v)]

/-- `IndexMap::contains_key`. -/
def imContainsKey (m : IndexMapSS) (k : String) : Bool :=
  List.any m fun p => p.1 == k

/-- The entry line `print_summary` writes for one (name, status) pair:
`{filename}/{rule_name:<longest+4}{status}` with the status wrapped in
`Some`. -/
def entrySummaryOf (rules_file_name : String) (longest : Nat)
    (p : String × Status) : Line :=
  Line.entryLine rules_file_name (padRight p.1 (longest + 4))
    (colored_string (some p.2))

/-- `print_summary`: writes one line per (rule_name, status) pair of the
map, in insertion order, propagating the first write failure. -/
def print_summary (sink : Sink) (rules_file_name : String) (longest : Nat)
    (rules : IndexMapSS) (st : WState) : WState × Bool :=
  match rules with
  | [] => (st, true)
  | p :: rest =>
    let r := writeln sink (entrySummaryOf rules_file_name longest p) st
    if r.2 then print_summary sink rules_file_name longest rest r.1
    else (r.1, false)

/-- The partition of `passed_or_skipped` performed at the top of
`report`: the first component collects the entries whose status is
exactly `Some(SKIP)`, the second everything else, both in input order. -/
def flatPartition (passed_or_skipped : List StatusContext) :
    List StatusContext × List StatusContext :=
  List.partition (fun c => c.status == some Status.SKIP) passed_or_skipped

/-- `SummaryTable::report` (flat mode). The three group-header
`writeln!` calls in the source drop their `Result` (no `?`), so a
failure there is ignored and the report continues; every other write
propagates its failure, aborting the report. -/
def SummaryTable.report (self : SummaryTable) (sink : Sink)
    (status : Option Status) (failed_rules : List StatusContext)
    (passed_or_skipped : List StatusContext)
    (longest_rule_name : Nat) : WState × Bool :=
  let parts := flatPartition passed_or_skipped
  let skipped := parts.1
  let passed := parts.2
  let r1 := writeln sink
    (Line.statusLine self.data_file_name (colored_string status)) ⟨0, []⟩
  if !r1.2 then (r1.1, false) else
  let rs :=
    if self.summary_type.contains SummaryType.SKIP && !skipped.isEmpty then
      let rh := writeln sink (Line.headerLine "SKIP rules") r1.1
      print_partition sink self.rules_file_name skipped longest_rule_name rh.1
    else (r1.1, true)
  if !rs.2 then (rs.1, false) else
  let rp :=
    if self.summary_type.contains SummaryType.PASS && !passed.isEmpty then
      let rh := writeln sink (Line.headerLine "PASS rules") rs.1
      print_partition sink self.rules_file_name passed longest_rule_name rh.1
    else (rs.1, true)
  if !rp.2 then (rp.1, false) else
  let rf :=
    if self.summary_type.contains SummaryType.FAIL && !failed_rules.isEmpty then
      let rh := writeln sink (Line.headerLine "FAILED rules") rp.1
      print_partition sink self.rules_file_name failed_rules longest_rule_name rh.1
    else (rp.1, true)
  if !rf.2 then (rf.1, false) else
  writeln sink Line.sepLine rf.1

/-- One step of the classification loop in `report_eval`: a child whose
container is a named rule-check result inserts (name, status) into the
group matching its status and bumps the running longest name length; any
other child contributes nothing. The accumulator is
(passed, failed, skipped, longest). -/
def buildStep (acc : IndexMapSS × IndexMapSS × IndexMapSS × Nat)
    (each_rule : EventRecord) : IndexMapSS × IndexMapSS × IndexMapSS × Nat :=
  match each_rule.container with
  | some (RecordType.RuleCheck ns) =>
    let passed := acc.1
    let failed := acc.2.1
    let skipped := acc.2.2.1
    let longest := acc.2.2.2
    let groups :=
      match ns.status with
      | Status.PASS => (imInsert passed ns.name ns.status, failed, skipped)
      | Status.FAIL => (passed, imInsert failed ns.name ns.status, skipped)
      | Status.SKIP => (passed, failed, imInsert skipped ns.name ns.status)
    (groups.1, groups.2.1, groups.2.2,
      if longest < ns.name.length then ns.name.length else longest)
  | _ => acc

/-- The classification loop of `report_eval` over the root's direct
children. -/
def buildGroups (children : List EventRecord) :
    IndexMapSS × IndexMapSS × IndexMapSS × Nat :=
  List.foldl buildStep ([], [], [], 0) children

/-- The PASS group `report_eval` builds from the root. -/
def evalPassed (root : EventRecord) : IndexMapSS :=
  (buildGroups root.children).1

/-- The FAIL group `report_eval` builds from the root. -/
def evalFailed (root : EventRecord) : IndexMapSS :=
  (buildGroups root.children).2.1

/-- The SKIP group `report_eval` builds from the root, before the
duplicate-name `retain`. -/
def evalSkippedRaw (root : EventRecord) : IndexMapSS :=
  (buildGroups root.children).2.2.1

/-- The longest rule name length `report_eval` computes over the root's
rule-check children. -/
def evalLongest (root : EventRecord) : Nat :=
  (buildGroups root.children).2.2.2

/-- The SKIP group after `skipped.retain(|key, _| !(passed.contains_key
(key) || failed.contains_key(key)))`: the rendered SKIP group. -/
def evalSkipped (root : EventRecord) : IndexMapSS :=
  List.filter
    (fun p => !(imContainsKey (evalPassed root) p.1
                || imContainsKey (evalFailed root) p.1))
    (evalSkippedRaw root)

/-- `SummaryTable::report_eval` (trace mode). Every `writeln!` here,
group headers included, carries `?`, so the first write failure aborts
the report. -/
def SummaryTable.report_eval (self : SummaryTable) (sink : Sink)
    (status : Status) (root_record : EventRecord) : WState × Bool :=
  let r1 := writeln sink
    (Line.statusLine self.data_file_name (colored_string (some status))) ⟨0, []⟩
  if !r1.2 then (r1.1, false) else
  let passed := evalPassed root_record
  let failed := evalFailed root_record
  let skipped := evalSkipped root_record
  let longest := evalLongest root_record
  let rs :=
    if self.summary_type.contains SummaryType.SKIP && !skipped.isEmpty then
      let rh := writeln sink (Line.headerLine "SKIP rules") r1.1
      if !rh.2 then (rh.1, false) else
      print_summary sink self.rules_file_name longest skipped rh.1
    else (r1.1, true)
  if !rs.2 then (rs.1, false) else
  let rp :=
    if self.summary_type.contains SummaryType.PASS && !passed.isEmpty then
      let rh := writeln sink (Line.headerLine "PASS rules") rs.1
      if !rh.2 then (rh.1, false) else
      print_summary sink self.rules_file_name longest passed rh.1
    else (rs.1, true)
  if !rp.2 then (rp.1, false) else
  let rf :=
    if self.summary_type.contains SummaryType.FAIL && !failed.isEmpty then
      let rh := writeln sink (Line.headerLine "FAILED rules") rp.1
      if !rh.2 then (rh.1, false) else
      print_summary sink self.rules_file_name longest failed rh.1
    else (rp.1, true)
  if !rf.2 then (rf.1, false) else
  writeln sink Line.sepLine rf.1

/-! ## A sink on which every write succeeds, and output characterization -/

/-- The sink that accepts every write. -/
def allOk : Sink := fun _ => true

theorem writeln_allOk (l : Line) (st : WState) :
    writeln allOk l st = (⟨st.attempted + 1, st.written ++ [l]⟩, true) := rfl

theorem print_partition_allOk (f : String) (longest : Nat)
    (part : List StatusContext) : ∀ st : WState,
    print_partition allOk f part longest st =
      (⟨st.attempted + part.length,
        st.written ++ List.map (entryOf f longest) part⟩, true) := by
  induction part with
  | nil => intro st; simp [print_partition]
  | cons c rest ih =>
    intro st
    simp only [print_partition, writeln_allOk, ih, List.map_cons, List.length_cons]
    simp
    omega

theorem print_summary_allOk (f : String) (longest : Nat)
    (rules : IndexMapSS) : ∀ st : WState,
    print_summary allOk f longest rules st =
      (⟨st.attempted + rules.length,
        st.written ++ List.map (entrySummaryOf f longest) rules⟩, true) := by
  induction rules with
  | nil => intro st; simp [print_summary]
  | cons p rest ih =>
    intro st
    simp only [print_summary, writeln_allOk, ih, List.map_cons, List.length_cons]
    simp
    omega

/-- The SKIP section of flat-mode output: header plus entry lines when
the selector includes SKIP and the group is non-empty, nothing
otherwise. -/
def flatSkipBlock (self : SummaryTable) (skipped : List StatusContext)
    (longest : Nat) : List Line :=
  if self.summary_type.contains SummaryType.SKIP && !skipped.isEmpty
  then Line.headerLine "SKIP rules" ::
    List.map (entryOf self.rules_file_name longest) skipped
  else []

/-- The PASS section of flat-mode output. -/
def flatPassBlock (self : SummaryTable) (passed : List StatusContext)
    (longest : Nat) : List Line :=
  if self.summary_type.contains SummaryType.PASS && !passed.isEmpty
  then Line.headerLine "PASS rules" ::
    List.map (entryOf self.rules_file_name longest) passed
  else []

/-- The FAILED section of flat-mode output. -/
def flatFailBlock (self : SummaryTable) (failed_rules : List StatusContext)
    (longest : Nat) : List Line :=
  if self.summary_type.contains SummaryType.FAIL && !failed_rules.isEmpty
  then Line.headerLine "FAILED rules" ::
    List.map (entryOf self.rules_file_name longest) failed_rules
  else []

/-- The full list of lines flat-mode `report` writes when no write
fails. -/
def flatOutput (self : SummaryTable) (status : Option Status)
    (failed_rules passed_or_skipped : List StatusContext)
    (longest_rule_name : Nat) : List Line :=
  Line.statusLine self.data_file_name (colored_string status) ::
    (flatSkipBlock self (flatPartition passed_or_skipped).1 longest_rule_name ++
     (flatPassBlock self (flatPartition passed_or_skipped).2 longest_rule_name ++
      (flatFailBlock self failed_rules longest_rule_name ++ [Line.sepLine])))

theorem report_allOk (self : SummaryTable) (status : Option Status)
    (failed_rules passed_or_skipped : List StatusContext)
    (longest_rule_name : Nat) :
    self.report allOk status failed_rules passed_or_skipped longest_rule_name =
      (⟨(flatOutput self status failed_rules passed_or_skipped
          longest_rule_name).length,
        flatOutput self status failed_rules passed_or_skipped
          longest_rule_name⟩, true) := by
  by_cases h1 : (self.summary_type.contains SummaryType.SKIP
      && !(flatPartition passed_or_skipped).1.isEmpty) = true <;>
  by_cases h2 : (self.summary_type.contains SummaryType.PASS
      && !(flatPartition passed_or_skipped).2.isEmpty) = true <;>
  by_cases h3 : (self.summary_type.contains SummaryType.FAIL
      && !failed_rules.isEmpty) = true <;>
  · simp only [SummaryTable.report, flatOutput, flatSkipBlock, flatPassBlock,
      flatFailBlock, writeln_allOk, print_partition_allOk, h1, h2, h3,
      if_true, if_false, Bool.not_true, Bool.not_false]
    simp
    all_goals omega

/-- The SKIP section of trace-mode output. -/
def evalSkipBlock (self : SummaryTable) (root : EventRecord) : List Line :=
  if self.summary_type.contains SummaryType.SKIP && !(evalSkipped root).isEmpty
  then Line.headerLine "SKIP rules" ::
    List.map (entrySummaryOf self.rules_file_name (evalLongest root))
      (evalSkipped root)
  else []

/-- The PASS section of trace-mode output. -/
def evalPassBlock (self : SummaryTable) (root : EventRecord) : List Line :=
  if self.summary_type.contains SummaryType.PASS && !(evalPassed root).isEmpty
  then Line.headerLine "PASS rules" ::
    List.map (entrySummaryOf self.rules_file_name (evalLongest root))
      (evalPassed root)
  else []

/-- The FAILED section of trace-mode output. -/
def evalFailBlock (self : SummaryTable) (root : EventRecord) : List Line :=
  if self.summary_type.contains SummaryType.FAIL && !(evalFailed root).isEmpty
  then Line.headerLine "FAILED rules" ::
    List.map (entrySummaryOf self.rules_file_name (evalLongest root))
      (evalFailed root)
  else []

/-- The full list of lines trace-mode `report_eval` writes when no
write fails. -/
def evalOutput (self : SummaryTable) (status : Status)
    (root : EventRecord) : List Line :=
  Line.statusLine self.data_file_name (colored_string (some status)) ::
    (evalSkipBlock self root ++
     (evalPassBlock self root ++ (evalFailBlock self root ++ [Line.sepLine])))

theorem report_eval_allOk (self : SummaryTable) (status : Status)
    (root : EventRecord) :
    self.report_eval allOk status root =
      (⟨(evalOutput self status root).length, evalOutput self status root⟩,
        true) := by
  by_cases h1 : (self.summary_type.contains SummaryType.SKIP
      && !(evalSkipped root).isEmpty) = true <;>
  by_cases h2 : (self.summary_type.contains SummaryType.PASS
      && !(evalPassed root).isEmpty) = true <;>
  by_cases h3 : (self.summary_type.contains SummaryType.FAIL
      && !(evalFailed root).isEmpty) = true <;>
  · simp only [SummaryTable.report_eval, evalOutput, evalSkipBlock,
      evalPassBlock, evalFailBlock, writeln_allOk, print_summary_allOk,
      h1, h2, h3, if_true, if_false, Bool.not_true, Bool.not_false]
    simp
    all_goals omega

/-! ## Helper lemmas -/

theorem padRight_length (s : String) (w : Nat) (h : s.length ≤ w) :
    (padRight s w).length = w := by
  have h2 : (String.mk (List.replicate (w - s.length) ' ')).length
      = w - s.length := by
    show (List.replicate (w - s.length) ' ').length = w - s.length
    simp
  rw [padRight, String.length_append, h2]
  omega

/-! ## Claim theorems -/

/-- C2: in trace mode, a rule name classified into the PASS group or
the FAIL group never appears in the rendered SKIP group, even when some
direct child tagged it SKIP (the `retain` on line 129 of the source
removes such entries). -/
theorem claim2_skip_superseded (root : EventRecord) (n : String)
    (h : imContainsKey (evalPassed root) n = true
      ∨ imContainsKey (evalFailed root) n = true) :
    imContainsKey (evalSkipped root) n = false := by
  cases hc : imContainsKey (evalSkipped root) n with
  | false => rfl
  | true =>
    exfalso
    rw [imContainsKey, List.any_eq_true] at hc
    obtain ⟨p, hp, hpn⟩ := hc
    rw [evalSkipped, List.mem_filter] at hp
    obtain ⟨-, hpred⟩ := hp
    have hn : p.1 = n := by simpa using hpn
    rw [hn] at hpred
    rcases h with h | h <;> simp [h] at hpred

/-- C2 witness: a root whose two children tag "ruleA" as SKIP and then
PASS; "ruleA" lands in PASS and is absent from the rendered SKIP
group. -/
theorem claim2_skip_superseded_witness :
    (imContainsKey (evalPassed (EventRecord.mk "root" none
        [EventRecord.mk "a"
          (some (RecordType.RuleCheck ⟨"ruleA", Status.SKIP⟩)) [],
         EventRecord.mk "b"
          (some (RecordType.RuleCheck ⟨"ruleA", Status.PASS⟩)) []]))
        "ruleA" = true
      ∨ imContainsKey (evalFailed (EventRecord.mk "root" none
        [EventRecord.mk "a"
          (some (RecordType.RuleCheck ⟨"ruleA", Status.SKIP⟩)) [],
         EventRecord.mk "b"
          (some (RecordType.RuleCheck ⟨"ruleA", Status.PASS⟩)) []]))
        "ruleA" = true) ∧
    imContainsKey (evalSkipped (EventRecord.mk "root" none
        [EventRecord.mk "a"
          (some (RecordType.RuleCheck ⟨"ruleA", Status.SKIP⟩)) [],
         EventRecord.mk "b"
          (some (RecordType.RuleCheck ⟨"ruleA", Status.PASS⟩)) []]))
        "ruleA" = false :=
  ⟨Or.inl (by decide), claim2_skip_superseded _ _ (Or.inl (by decide))⟩

/-- A sink that rejects exactly write attempt 1 (the second write) and
accepts every other attempt. -/
def failAtOne : Sink := fun n => !(n == 1)

/-- C3 is violated by flat mode: the three group-header `writeln!` calls
in `report` drop their `Result` (no `?`). With a sink that fails exactly
on the "SKIP rules" header write (attempt 1), `report` keeps writing
(the entry line and the separator are still attempted and written,
4 attempts in all) and returns success, instead of aborting at the
failed write and returning the failure. -/
theorem claim3_flat_header_failure_ignored :
    (SummaryTable.mk "r" "d" ⟨true, true, true⟩).report failAtOne none []
        [⟨"a", some Status.SKIP⟩] 1 =
      (⟨4, [Line.statusLine "d" "unknown",
            Line.entryLine "r" "a    " "SKIP", Line.sepLine]⟩, true) := by
  decide

/-- C4: flat mode partitions the passed-or-skipped list by exact
equality of the status to `Some(SKIP)`; everything else in that list,
including entries with status `None` or `FAIL`, lands in the PASS
group. -/
theorem claim4_flat_partition (l : List StatusContext) (c : StatusContext) :
    (c ∈ (flatPartition l).1 ↔ c ∈ l ∧ c.status = some Status.SKIP) ∧
    (c ∈ (flatPartition l).2 ↔ c ∈ l ∧ c.status ≠ some Status.SKIP) := by
  rw [flatPartition, List.partition_eq_filter_filter]
  constructor
  · simp [List.mem_filter]
  · simp [List.mem_filter]

/-- C8: in both modes the first line written is
`<data-file-name> Status = <status text>`, the overall status being
optional in flat mode and required (wrapped in `Some`) in trace mode. -/
theorem claim8_status_header_first (self : SummaryTable)
    (status : Option Status) (statusT : Status)
    (failed_rules passed_or_skipped : List StatusContext)
    (longest_rule_name : Nat) (root : EventRecord) :
    (self.report allOk status failed_rules passed_or_skipped
        longest_rule_name).1.written.head? =
      some (Line.statusLine self.data_file_name (colored_string status)) ∧
    (self.report_eval allOk statusT root).1.written.head? =
      some (Line.statusLine self.data_file_name
        (colored_string (some statusT))) := by
  rw [report_allOk, report_eval_allOk]
  exact ⟨rfl, rfl⟩

/-- C1: in both flat and trace mode, the group for a category (its
header line plus entries) is emitted iff the selector includes the
category and the group is non-empty; an empty selector, or empty
inputs, yields only the overall-status line and the trailing
separator. -/
theorem claim1_group_emission (self : SummaryTable) (status : Option Status)
    (statusT : Status) (failed_rules passed_or_skipped : List StatusContext)
    (longest_rule_name : Nat) (root : EventRecord) (ctx : String) :
    (Line.headerLine "SKIP rules" ∈
        (self.report allOk status failed_rules passed_or_skipped
          longest_rule_name).1.written ↔
      self.summary_type.contains SummaryType.SKIP = true
        ∧ (flatPartition passed_or_skipped).1 ≠ []) ∧
    (Line.headerLine "PASS rules" ∈
        (self.report allOk status failed_rules passed_or_skipped
          longest_rule_name).1.written ↔
      self.summary_type.contains SummaryType.PASS = true
        ∧ (flatPartition passed_or_skipped).2 ≠ []) ∧
    (Line.headerLine "FAILED rules" ∈
        (self.report allOk status failed_rules passed_or_skipped
          longest_rule_name).1.written ↔
      self.summary_type.contains SummaryType.FAIL = true
        ∧ failed_rules ≠ []) ∧
    (Line.headerLine "SKIP rules" ∈
        (self.report_eval allOk statusT root).1.written ↔
      self.summary_type.contains SummaryType.SKIP = true
        ∧ evalSkipped root ≠ []) ∧
    (Line.headerLine "PASS rules" ∈
        (self.report_eval allOk statusT root).1.written ↔
      self.summary_type.contains SummaryType.PASS = true
        ∧ evalPassed root ≠ []) ∧
    (Line.headerLine "FAILED rules" ∈
        (self.report_eval allOk statusT root).1.written ↔
      self.summary_type.contains SummaryType.FAIL = true
        ∧ evalFailed root ≠ []) ∧
    ((SummaryTable.mk self.rules_file_name self.data_file_name
        ⟨false, false, false⟩).report allOk status failed_rules
          passed_or_skipped longest_rule_name).1.written =
      [Line.statusLine self.data_file_name (colored_string status),
        Line.sepLine] ∧
    ((SummaryTable.mk self.rules_file_name self.data_file_name
        ⟨false, false, false⟩).report_eval allOk statusT root).1.written =
      [Line.statusLine self.data_file_name (colored_string (some statusT)),
        Line.sepLine] ∧
    (self.report allOk status [] [] longest_rule_name).1.written =
      [Line.statusLine self.data_file_name (colored_string status),
        Line.sepLine] ∧
    (self.report_eval allOk statusT (EventRecord.mk ctx none [])).1.written =
      [Line.statusLine self.data_file_name (colored_string (some statusT)),
        Line.sepLine] := by
  refine ⟨?_, ?_, ?_, ?_, ?_, ?_, ?_, ?_, ?_, ?_⟩ <;>
    simp only [report_allOk, report_eval_allOk] <;>
    simp only [flatOutput, evalOutput, flatSkipBlock, flatPassBlock,
      flatFailBlock, evalSkipBlock, evalPassBlock, evalFailBlock]
  case refine_1 =>
    by_cases h1 : (self.summary_type.contains SummaryType.SKIP
        && !(flatPartition passed_or_skipped).1.isEmpty) = true <;>
    by_cases h2 : (self.summary_type.contains SummaryType.PASS
        && !(flatPartition passed_or_skipped).2.isEmpty) = true <;>
    by_cases h3 : (self.summary_type.contains SummaryType.FAIL
        && !failed_rules.isEmpty) = true <;>
      simp_all [entryOf, List.isEmpty_iff]
  case refine_2 =>
    by_cases h1 : (self.summary_type.contains SummaryType.SKIP
        && !(flatPartition passed_or_skipped).1.isEmpty) = true <;>
    by_cases h2 : (self.summary_type.contains SummaryType.PASS
        && !(flatPartition passed_or_skipped).2.isEmpty) = true <;>
    by_cases h3 : (self.summary_type.contains SummaryType.FAIL
        && !failed_rules.isEmpty) = true <;>
      simp_all [entryOf, List.isEmpty_iff]
  case refine_3 =>
    by_cases h1 : (self.summary_type.contains SummaryType.SKIP
        && !(flatPartition passed_or_skipped).1.isEmpty) = true <;>
    by_cases h2 : (self.summary_type.contains SummaryType.PASS
        && !(flatPartition passed_or_skipped).2.isEmpty) = true <;>
    by_cases h3 : (self.summary_type.contains SummaryType.FAIL
        && !failed_rules.isEmpty) = true <;>
      simp_all [entryOf, List.isEmpty_iff]
  case refine_4 =>
    by_cases h1 : (self.summary_type.contains SummaryType.SKIP
        && !(evalSkipped root).isEmpty) = true <;>
    by_cases h2 : (self.summary_type.contains SummaryType.PASS
        && !(evalPassed root).isEmpty) = true <;>
    by_cases h3 : (self.summary_type.contains SummaryType.FAIL
        && !(evalFailed root).isEmpty) = true <;>
      simp_all [entrySummaryOf, List.isEmpty_iff]
  case refine_5 =>
    by_cases h1 : (self.summary_type.contains SummaryType.SKIP
        && !(evalSkipped root).isEmpty) = true <;>
    by_cases h2 : (self.summary_type.contains SummaryType.PASS
        && !(evalPassed root).isEmpty) = true <;>
    by_cases h3 : (self.summary_type.contains SummaryType.FAIL
        && !(evalFailed root).isEmpty) = true <;>
      simp_all [entrySummaryOf, List.isEmpty_iff]
  case refine_6 =>
    by_cases h1 : (self.summary_type.contains SummaryType.SKIP
        && !(evalSkipped root).isEmpty) = true <;>
    by_cases h2 : (self.summary_type.contains SummaryType.PASS
        && !(evalPassed root).isEmpty) = true <;>
    by_cases h3 : (self.summary_type.contains SummaryType.FAIL
        && !(evalFailed root).isEmpty) = true <;>
      simp_all [entrySummaryOf, List.isEmpty_iff]
  case refine_7 => simp [SummaryFlags.contains]
  case refine_8 => simp [SummaryFlags.contains]
  case refine_9 => simp [flatPartition]
  case refine_10 =>
    simp [evalSkipped, evalSkippedRaw, evalPassed, evalFailed, evalLongest,
      buildGroups, EventRecord.children]

/-- Helper: the last element of an output of the shape all reports
produce. -/
theorem getLast?_shape (x : Line) (a b c : List Line) (y : Line) :
    (x :: (a ++ (b ++ (c ++ [y])))).getLast? = some y := by
  rw [show x :: (a ++ (b ++ (c ++ [y]))) = (x :: (a ++ b ++ c)) ++ [y] by simp]
  exact List.getLast?_concat _

/-- Helper: an output of the report shape contains exactly one
separator line. -/
theorem countP_sep_shape (x : Line) (hx : ¬x = Line.sepLine)
    (a b c : List Line) (ha : ∀ l ∈ a, ¬l = Line.sepLine)
    (hb : ∀ l ∈ b, ¬l = Line.sepLine) (hc : ∀ l ∈ c, ¬l = Line.sepLine) :
    (x :: (a ++ (b ++ (c ++ [Line.sepLine])))).countP
      (fun l => decide (l = Line.sepLine)) = 1 := by
  have za : List.countP (fun l => decide (l = Line.sepLine)) a = 0 :=
    List.countP_eq_zero.mpr (fun l hl => by simpa using ha l hl)
  have zb : List.countP (fun l => decide (l = Line.sepLine)) b = 0 :=
    List.countP_eq_zero.mpr (fun l hl => by simpa using hb l hl)
  have zc : List.countP (fun l => decide (l = Line.sepLine)) c = 0 :=
    List.countP_eq_zero.mpr (fun l hl => by simpa using hc l hl)
  simp [List.countP_cons, List.countP_append, hx, za, zb, zc]

theorem flatSkipBlock_no_sep (self : SummaryTable) (sk : List StatusContext)
    (lo : Nat) : ∀ l ∈ flatSkipBlock self sk lo, ¬l = Line.sepLine := by
  rw [flatSkipBlock]; split <;> simp [entryOf]

theorem flatPassBlock_no_sep (self : SummaryTable) (ps : List StatusContext)
    (lo : Nat) : ∀ l ∈ flatPassBlock self ps lo, ¬l = Line.sepLine := by
  rw [flatPassBlock]; split <;> simp [entryOf]

theorem flatFailBlock_no_sep (self : SummaryTable) (fl : List StatusContext)
    (lo : Nat) : ∀ l ∈ flatFailBlock self fl lo, ¬l = Line.sepLine := by
  rw [flatFailBlock]; split <;> simp [entryOf]

theorem evalSkipBlock_no_sep (self : SummaryTable) (root : EventRecord) :
    ∀ l ∈ evalSkipBlock self root, ¬l = Line.sepLine := by
  rw [evalSkipBlock]; split
  · intro l hl
    rcases List.mem_cons.mp hl with h | h
    · subst h; simp
    · obtain ⟨p, hp, hpl⟩ := List.mem_map.mp h
      subst hpl; simp [entrySummaryOf]
  · simp

theorem evalPassBlock_no_sep (self : SummaryTable) (root : EventRecord) :
    ∀ l ∈ evalPassBlock self root, ¬l = Line.sepLine := by
  rw [evalPassBlock]; split
  · intro l hl
    rcases List.mem_cons.mp hl with h | h
    · subst h; simp
    · obtain ⟨p, hp, hpl⟩ := List.mem_map.mp h
      subst hpl; simp [entrySummaryOf]
  · simp

theorem evalFailBlock_no_sep (self : SummaryTable) (root : EventRecord) :
    ∀ l ∈ evalFailBlock self root, ¬l = Line.sepLine := by
  rw [evalFailBlock]; split
  · intro l hl
    rcases List.mem_cons.mp hl with h | h
    · subst h; simp
    · obtain ⟨p, hp, hpl⟩ := List.mem_map.mp h
      subst hpl; simp [entrySummaryOf]
  · simp

/-- C5: in both modes, when no write fails the output decomposes as the
status line, a SKIP section, a PASS section, a FAIL section in that
fixed relative order, and the separator; each section is either empty or
its header followed by the group's entries in original input (resp.
insertion) order. -/
theorem claim5_fixed_group_order (self : SummaryTable) (status : Option Status)
    (statusT : Status) (failed_rules passed_or_skipped : List StatusContext)
    (longest_rule_name : Nat) (root : EventRecord) :
    (∃ b1 b2 b3,
      (self.report allOk status failed_rules passed_or_skipped
          longest_rule_name).1.written =
        Line.statusLine self.data_file_name (colored_string status) ::
          (b1 ++ (b2 ++ (b3 ++ [Line.sepLine]))) ∧
      (b1 = [] ∨ b1 = Line.headerLine "SKIP rules" ::
        List.map (entryOf self.rules_file_name longest_rule_name)
          (flatPartition passed_or_skipped).1) ∧
      (b2 = [] ∨ b2 = Line.headerLine "PASS rules" ::
        List.map (entryOf self.rules_file_name longest_rule_name)
          (flatPartition passed_or_skipped).2) ∧
      (b3 = [] ∨ b3 = Line.headerLine "FAILED rules" ::
        List.map (entryOf self.rules_file_name longest_rule_name)
          failed_rules)) ∧
    (∃ b1 b2 b3,
      (self.report_eval allOk statusT root).1.written =
        Line.statusLine self.data_file_name
            (colored_string (some statusT)) ::
          (b1 ++ (b2 ++ (b3 ++ [Line.sepLine]))) ∧
      (b1 = [] ∨ b1 = Line.headerLine "SKIP rules" ::
        List.map (entrySummaryOf self.rules_file_name (evalLongest root))
          (evalSkipped root)) ∧
      (b2 = [] ∨ b2 = Line.headerLine "PASS rules" ::
        List.map (entrySummaryOf self.rules_file_name (evalLongest root))
          (evalPassed root)) ∧
      (b3 = [] ∨ b3 = Line.headerLine "FAILED rules" ::
        List.map (entrySummaryOf self.rules_file_name (evalLongest root))
          (evalFailed root))) := by
  constructor
  · refine ⟨flatSkipBlock self (flatPartition passed_or_skipped).1
        longest_rule_name,
      flatPassBlock self (flatPartition passed_or_skipped).2
        longest_rule_name,
      flatFailBlock self failed_rules longest_rule_name, ?_, ?_, ?_, ?_⟩
    · rw [report_allOk]; rfl
    · rw [flatSkipBlock]; split
      · right; rfl
      · left; rfl
    · rw [flatPassBlock]; split
      · right; rfl
      · left; rfl
    · rw [flatFailBlock]; split
      · right; rfl
      · left; rfl
  · refine ⟨evalSkipBlock self root, evalPassBlock self root,
      evalFailBlock self root, ?_, ?_, ?_, ?_⟩
    · rw [report_eval_allOk]; rfl
    · rw [evalSkipBlock]; split
      · right; rfl
      · left; rfl
    · rw [evalPassBlock]; split
      · right; rfl
      · left; rfl
    · rw [evalFailBlock]; split
      · right; rfl
      · left; rfl

/-- C7: when no write fails, the last line written in both modes is the
separator `---`, and it is written exactly once. -/
theorem claim7_trailing_separator (self : SummaryTable) (status : Option Status)
    (statusT : Status) (failed_rules passed_or_skipped : List StatusContext)
    (longest_rule_name : Nat) (root : EventRecord) :
    ((self.report allOk status failed_rules passed_or_skipped
        longest_rule_name).1.written.getLast? = some Line.sepLine ∧
     (self.report allOk status failed_rules passed_or_skipped
        longest_rule_name).1.written.countP
          (fun l => decide (l = Line.sepLine)) = 1) ∧
    ((self.report_eval allOk statusT root).1.written.getLast? =
        some Line.sepLine ∧
     (self.report_eval allOk statusT root).1.written.countP
          (fun l => decide (l = Line.sepLine)) = 1) := by
  rw [report_allOk, report_eval_allOk]
  refine ⟨⟨getLast?_shape _ _ _ _ _, countP_sep_shape _ (by simp) _ _ _
      (flatSkipBlock_no_sep _ _ _) (flatPassBlock_no_sep _ _ _)
      (flatFailBlock_no_sep _ _ _)⟩,
    ⟨getLast?_shape _ _ _ _ _, countP_sep_shape _ (by simp) _ _ _
      (evalSkipBlock_no_sep _ _) (evalPassBlock_no_sep _ _)
      (evalFailBlock_no_sep _ _)⟩⟩

/-- C10: flat mode renders the failed-rules list under the FAILED
header exactly as given: one line per entry, in input order, each with
the rendering of its own (possibly absent) status; the statuses are
never inspected or re-classified, so entries with status PASS, SKIP or
None are still printed in the FAILED group (the witness exhibits such
an input). -/
theorem claim10_failed_rendered_as_given (self : SummaryTable) (status : Option Status)
    (failed_rules passed_or_skipped : List StatusContext)
    (longest_rule_name : Nat)
    (hsel : self.summary_type.contains SummaryType.FAIL = true)
    (hne : failed_rules ≠ []) :
    ∃ pre, (self.report allOk status failed_rules passed_or_skipped
        longest_rule_name).1.written =
      pre ++ (Line.headerLine "FAILED rules" ::
        List.map (entryOf self.rules_file_name longest_rule_name)
          failed_rules) ++ [Line.sepLine] := by
  refine ⟨Line.statusLine self.data_file_name (colored_string status) ::
    (flatSkipBlock self (flatPartition passed_or_skipped).1
        longest_rule_name ++
     flatPassBlock self (flatPartition passed_or_skipped).2
        longest_rule_name), ?_⟩
  rw [report_allOk]
  have hfb : flatFailBlock self failed_rules longest_rule_name =
      Line.headerLine "FAILED rules" ::
        List.map (entryOf self.rules_file_name longest_rule_name)
          failed_rules := by
    rw [flatFailBlock, hsel]
    simp [List.isEmpty_iff, hne]
  show flatOutput self status failed_rules passed_or_skipped
      longest_rule_name = _
  rw [flatOutput, hfb]
  simp

/-- C10 witness: with the FAIL category selected, a failed-rules list
whose entries carry statuses PASS, None and SKIP is still rendered, as
given, under the FAILED header. -/
theorem claim10_failed_rendered_as_given_witness :
    (SummaryTable.mk "rules.guard" "data.json"
        ⟨true, true, true⟩).summary_type.contains SummaryType.FAIL = true ∧
    ([⟨"r1", some Status.PASS⟩, ⟨"r2", none⟩, ⟨"r3", some Status.SKIP⟩] :
        List StatusContext) ≠ [] ∧
    ∃ pre, ((SummaryTable.mk "rules.guard" "data.json"
        ⟨true, true, true⟩).report allOk none
        [⟨"r1", some Status.PASS⟩, ⟨"r2", none⟩, ⟨"r3", some Status.SKIP⟩]
        [] 2).1.written =
      pre ++ (Line.headerLine "FAILED rules" ::
        List.map (entryOf "rules.guard" 2)
          [⟨"r1", some Status.PASS⟩, ⟨"r2", none⟩,
           ⟨"r3", some Status.SKIP⟩]) ++ [Line.sepLine] :=
  ⟨by decide, by decide,
    claim10_failed_rendered_as_given _ _ _ _ _ (by decide) (by decide)⟩

/-- The named rule-check result a trace node carries, if any: the
projection `report_eval`'s classification loop matches on. -/
def nsOf (e : EventRecord) : Option NamedStatus :=
  match e.container with
  | some (RecordType.RuleCheck ns) => some ns
  | _ => none

/-- The named rule-check results carried by the direct children of the
root, in order. -/
def ruleChecks (root : EventRecord) : List NamedStatus :=
  List.filterMap nsOf root.children

/-- One classification step on a bare rule-check result. -/
def buildStepNS (acc : IndexMapSS × IndexMapSS × IndexMapSS × Nat)
    (ns : NamedStatus) : IndexMapSS × IndexMapSS × IndexMapSS × Nat :=
  let passed := acc.1
  let failed := acc.2.1
  let skipped := acc.2.2.1
  let longest := acc.2.2.2
  let groups :=
    match ns.status with
    | Status.PASS => (imInsert passed ns.name ns.status, failed, skipped)
    | Status.FAIL => (passed, imInsert failed ns.name ns.status, skipped)
    | Status.SKIP => (passed, failed, imInsert skipped ns.name ns.status)
  (groups.1, groups.2.1, groups.2.2,
    if longest < ns.name.length then ns.name.length else longest)

theorem buildStep_eq (acc : IndexMapSS × IndexMapSS × IndexMapSS × Nat)
    (e : EventRecord) :
    buildStep acc e = match nsOf e with
      | some ns => buildStepNS acc ns
      | none => acc := by
  cases e with
  | mk ctx cont ch =>
    cases cont with
    | none => rfl
    | some rt =>
      cases rt with
      | RuleCheck ns => rfl
      | OtherRecord => rfl

theorem foldl_buildStep (children : List EventRecord) :
    ∀ acc : IndexMapSS × IndexMapSS × IndexMapSS × Nat,
    List.foldl buildStep acc children =
      List.foldl buildStepNS acc (List.filterMap nsOf children) := by
  induction children with
  | nil => intro acc; rfl
  | cons e rest ih =>
    intro acc
    rw [List.foldl_cons, buildStep_eq]
    cases h : nsOf e with
    | none =>
      rw [List.filterMap_cons_none h]
      exact ih acc
    | some ns =>
      rw [List.filterMap_cons_some h, List.foldl_cons]
      exact ih (buildStepNS acc ns)

/-- C9: trace mode depends only on the named rule-check results carried
by the root's direct children: two roots whose direct children carry the
same rule-check results (in order) produce identical reports, whatever
their contexts, non-rule-check children or deeper descendants. -/
theorem claim9_only_direct_rulecheck_children (self : SummaryTable)
    (sink : Sink) (status : Status) (root1 root2 : EventRecord)
    (h : ruleChecks root1 = ruleChecks root2) :
    self.report_eval sink status root1 = self.report_eval sink status root2 := by
  simp only [ruleChecks] at h
  have hb : buildGroups root1.children = buildGroups root2.children := by
    rw [buildGroups, buildGroups, foldl_buildStep, foldl_buildStep, h]
  simp only [SummaryTable.report_eval, evalPassed, evalFailed, evalSkipped,
    evalSkippedRaw, evalLongest, hb]

/-- C9 witness: a root with a grandchild rule-check, a child without a
rule-check result and an `OtherRecord` child reports identically to a
bare root carrying the same single direct rule-check child. -/
theorem claim9_only_direct_rulecheck_children_witness :
    ruleChecks (EventRecord.mk "r1" none
      [EventRecord.mk "c1"
        (some (RecordType.RuleCheck ⟨"A", Status.PASS⟩))
        [EventRecord.mk "g"
          (some (RecordType.RuleCheck ⟨"B", Status.FAIL⟩)) []],
       EventRecord.mk "c2" none [],
       EventRecord.mk "c3" (some RecordType.OtherRecord) []]) =
      ruleChecks (EventRecord.mk "r2" none
        [EventRecord.mk "d1"
          (some (RecordType.RuleCheck ⟨"A", Status.PASS⟩)) []]) ∧
    (SummaryTable.mk "r" "d" ⟨true, true, true⟩).report_eval allOk
        Status.PASS (EventRecord.mk "r1" none
      [EventRecord.mk "c1"
        (some (RecordType.RuleCheck ⟨"A", Status.PASS⟩))
        [EventRecord.mk "g"
          (some (RecordType.RuleCheck ⟨"B", Status.FAIL⟩)) []],
       EventRecord.mk "c2" none [],
       EventRecord.mk "c3" (some RecordType.OtherRecord) []]) =
      (SummaryTable.mk "r" "d" ⟨true, true, true⟩).report_eval allOk
        Status.PASS (EventRecord.mk "r2" none
        [EventRecord.mk "d1"
          (some (RecordType.RuleCheck ⟨"A", Status.PASS⟩)) []]) :=
  ⟨rfl, claim9_only_direct_rulecheck_children _ _ _ _ _ rfl⟩

theorem mem_imInsert (m : IndexMapSS) (k : String) (v : Status)
    (p : String × Status) (h : p ∈ imInsert m k v) : p ∈ m ∨ p = (k, v) := by
  rw [imInsert] at h
  split at h
  · obtain ⟨q, hq, hqe⟩ := List.mem_map.mp h
    by_cases hk : (q.1 == k) = true
    · right
      rw [if_pos hk] at hqe
      exact hqe.symm
    · left
      rw [if_neg hk] at hqe
      rw [← hqe]
      exact hq
  · rcases List.mem_append.mp h with h | h
    · exact Or.inl h
    · exact Or.inr (by simpa using h)

/-- All rule names in the three running groups are bounded by the
running longest length. -/
def NamesBounded (r : IndexMapSS × IndexMapSS × IndexMapSS × Nat) : Prop :=
  (∀ p ∈ r.1, p.1.length ≤ r.2.2.2) ∧
  (∀ p ∈ r.2.1, p.1.length ≤ r.2.2.2) ∧
  (∀ p ∈ r.2.2.1, p.1.length ≤ r.2.2.2)

theorem buildStep_bounded (acc : IndexMapSS × IndexMapSS × IndexMapSS × Nat)
    (e : EventRecord) (h : NamesBounded acc) :
    NamesBounded (buildStep acc e) := by
  rw [buildStep_eq]
  cases hns : nsOf e with
  | none => exact h
  | some ns =>
    obtain ⟨h1, h2, h3⟩ := h
    have hm1 : acc.2.2.2 ≤
        (if acc.2.2.2 < ns.name.length then ns.name.length
         else acc.2.2.2) := by split <;> omega
    have hm2 : ns.name.length ≤
        (if acc.2.2.2 < ns.name.length then ns.name.length
         else acc.2.2.2) := by split <;> omega
    have hins : ∀ m : IndexMapSS, (∀ p ∈ m, p.1.length ≤ acc.2.2.2) →
        ∀ p ∈ imInsert m ns.name ns.status, p.1.length ≤
          (if acc.2.2.2 < ns.name.length then ns.name.length
           else acc.2.2.2) := by
      intro m hmem p hp
      rcases mem_imInsert m ns.name ns.status p hp with hp | hp
      · exact le_trans (hmem p hp) hm1
      · rw [hp]
        exact hm2
    cases ns with
    | mk nname nstatus =>
      cases nstatus with
      | PASS =>
        exact ⟨hins acc.1 h1, fun p hp => le_trans (h2 p hp) hm1,
          fun p hp => le_trans (h3 p hp) hm1⟩
      | FAIL =>
        exact ⟨fun p hp => le_trans (h1 p hp) hm1, hins acc.2.1 h2,
          fun p hp => le_trans (h3 p hp) hm1⟩
      | SKIP =>
        exact ⟨fun p hp => le_trans (h1 p hp) hm1,
          fun p hp => le_trans (h2 p hp) hm1, hins acc.2.2.1 h3⟩

theorem buildGroups_bounded (children : List EventRecord) :
    NamesBounded (buildGroups children) := by
  rw [buildGroups]
  have base : NamesBounded (([], [], [], 0) :
      IndexMapSS × IndexMapSS × IndexMapSS × Nat) := by
    refine ⟨?_, ?_, ?_⟩ <;> intro p hp <;> cases hp
  generalize hg : (([], [], [], 0) :
      IndexMapSS × IndexMapSS × IndexMapSS × Nat) = acc
  rw [hg] at base
  clear hg
  induction children generalizing acc with
  | nil => exact base
  | cons e rest ih => exact ih _ (buildStep_bounded _ _ base)

theorem evalPassed_name_le (root : EventRecord) :
    ∀ p ∈ evalPassed root, p.1.length ≤ evalLongest root :=
  (buildGroups_bounded root.children).1

theorem evalFailed_name_le (root : EventRecord) :
    ∀ p ∈ evalFailed root, p.1.length ≤ evalLongest root :=
  (buildGroups_bounded root.children).2.1

theorem evalSkipped_name_le (root : EventRecord) :
    ∀ p ∈ evalSkipped root, p.1.length ≤ evalLongest root := by
  intro p hp
  rw [evalSkipped] at hp
  exact (buildGroups_bounded root.children).2.2 p (List.mem_filter.mp hp).1

theorem flatPartition_fst_subset (l : List StatusContext) :
    ∀ c ∈ (flatPartition l).1, c ∈ l := by
  rw [flatPartition, List.partition_eq_filter_filter]
  intro c h
  exact (List.mem_filter.mp h).1

theorem flatPartition_snd_subset (l : List StatusContext) :
    ∀ c ∈ (flatPartition l).2, c ∈ l := by
  rw [flatPartition, List.partition_eq_filter_filter]
  intro c h
  exact (List.mem_filter.mp h).1

theorem entry_shape_flat {t fn : String} {lo : Nat}
    {xs : List StatusContext} {cond : Bool} {f c s : String}
    (h : Line.entryLine f c s ∈
      (if cond then Line.headerLine t :: List.map (entryOf fn lo) xs
       else [])) :
    f = fn ∧ ∃ c0 ∈ xs, c = padRight c0.context (lo + 4) := by
  split at h
  · rcases List.mem_cons.mp h with h | h
    · exact absurd h (by simp)
    · obtain ⟨c0, hc0, he⟩ := List.mem_map.mp h
      rw [entryOf] at he
      injection he with h1 h2 h3
      exact ⟨h1.symm, c0, hc0, h2.symm⟩
  · exact absurd h (by simp)

theorem entry_shape_im {t fn : String} {lo : Nat}
    {xs : IndexMapSS} {cond : Bool} {f c s : String}
    (h : Line.entryLine f c s ∈
      (if cond then Line.headerLine t :: List.map (entrySummaryOf fn lo) xs
       else [])) :
    f = fn ∧ ∃ p ∈ xs, c = padRight p.1 (lo + 4) := by
  split at h
  · rcases List.mem_cons.mp h with h | h
    · exact absurd h (by simp)
    · obtain ⟨p, hp, he⟩ := List.mem_map.mp h
      rw [entrySummaryOf] at he
      injection he with h1 h2 h3
      exact ⟨h1.symm, p, hp, h2.symm⟩
  · exact absurd h (by simp)

/-- C6: when every rendered rule name is at most the maximum name
length (caller-supplied in flat mode; automatic in trace mode, where the
maximum is computed over the rule-check children), every entry line is
`<rules-source-label>/<name padded to max+4><status text>`, so the
status text of every entry line starts at column
`len(label) + 1 + (max_name_length + 4)`. -/
theorem claim6_column_alignment (self : SummaryTable) (status : Option Status)
    (statusT : Status) (failed_rules passed_or_skipped : List StatusContext)
    (longest_rule_name : Nat) (root : EventRecord)
    (hfail : ∀ c ∈ failed_rules, c.context.length ≤ longest_rule_name)
    (hpos : ∀ c ∈ passed_or_skipped, c.context.length ≤ longest_rule_name) :
    (∀ l ∈ (self.report allOk status failed_rules passed_or_skipped
        longest_rule_name).1.written, ∀ f c s, l = Line.entryLine f c s →
      f = self.rules_file_name ∧ c.length = longest_rule_name + 4 ∧
      Line.render l = self.rules_file_name ++ "/" ++ c ++ s ∧
      (self.rules_file_name ++ "/" ++ c).length =
        self.rules_file_name.length + 1 + (longest_rule_name + 4)) ∧
    (∀ l ∈ (self.report_eval allOk statusT root).1.written,
      ∀ f c s, l = Line.entryLine f c s →
      f = self.rules_file_name ∧ c.length = evalLongest root + 4 ∧
      Line.render l = self.rules_file_name ++ "/" ++ c ++ s ∧
      (self.rules_file_name ++ "/" ++ c).length =
        self.rules_file_name.length + 1 + (evalLongest root + 4)) := by
  have hslash : ("/" : String).length = 1 := rfl
  constructor
  · intro l hl f c s hleq
    subst hleq
    rw [report_allOk] at hl
    have hshape : f = self.rules_file_name ∧
        ∃ c0 ∈ passed_or_skipped ++ failed_rules,
          c = padRight c0.context (longest_rule_name + 4) := by
      rcases List.mem_cons.mp hl with h | h
      · exact absurd h (by simp)
      rcases List.mem_append.mp h with h | h
      · obtain ⟨h1, c0, hc0, h2⟩ := entry_shape_flat h
        exact ⟨h1, c0, List.mem_append.mpr (Or.inl
          (flatPartition_fst_subset _ _ hc0)), h2⟩
      rcases List.mem_append.mp h with h | h
      · obtain ⟨h1, c0, hc0, h2⟩ := entry_shape_flat h
        exact ⟨h1, c0, List.mem_append.mpr (Or.inl
          (flatPartition_snd_subset _ _ hc0)), h2⟩
      rcases List.mem_append.mp h with h | h
      · obtain ⟨h1, c0, hc0, h2⟩ := entry_shape_flat h
        exact ⟨h1, c0, List.mem_append.mpr (Or.inr hc0), h2⟩
      · exact absurd h (by simp)
    obtain ⟨h1, c0, hc0, h2⟩ := hshape
    have hb : c0.context.length ≤ longest_rule_name := by
      rcases List.mem_append.mp hc0 with h | h
      · exact hpos c0 h
      · exact hfail c0 h
    have hclen : c.length = longest_rule_name + 4 := by
      rw [h2]
      exact padRight_length _ _ (by omega)
    refine ⟨h1, hclen, by rw [Line.render, h1], ?_⟩
    rw [String.length_append, String.length_append, hslash, hclen]
  · intro l hl f c s hleq
    subst hleq
    rw [report_eval_allOk] at hl
    have hshape : f = self.rules_file_name ∧
        ∃ p, (p ∈ evalSkipped root ∨ p ∈ evalPassed root ∨
            p ∈ evalFailed root) ∧
          c = padRight p.1 (evalLongest root + 4) := by
      rcases List.mem_cons.mp hl with h | h
      · exact absurd h (by simp)
      rcases List.mem_append.mp h with h | h
      · obtain ⟨h1, p, hp, h2⟩ := entry_shape_im h
        exact ⟨h1, p, Or.inl hp, h2⟩
      rcases List.mem_append.mp h with h | h
      · obtain ⟨h1, p, hp, h2⟩ := entry_shape_im h
        exact ⟨h1, p, Or.inr (Or.inl hp), h2⟩
      rcases List.mem_append.mp h with h | h
      · obtain ⟨h1, p, hp, h2⟩ := entry_shape_im h
        exact ⟨h1, p, Or.inr (Or.inr hp), h2⟩
      · exact absurd h (by simp)
    obtain ⟨h1, p, hp, h2⟩ := hshape
    have hb : p.1.length ≤ evalLongest root := by
      rcases hp with hp | hp | hp
      · exact evalSkipped_name_le root p hp
      · exact evalPassed_name_le root p hp
      · exact evalFailed_name_le root p hp
    have hclen : c.length = evalLongest root + 4 := by
      rw [h2]
      exact padRight_length _ _ (by omega)
    refine ⟨h1, hclen, by rw [Line.render, h1], ?_⟩
    rw [String.length_append, String.length_append, hslash, hclen]

/-- C6 witness: a concrete flat report with max name length 5 and a
concrete trace report; every entry line aligns. -/
theorem claim6_column_alignment_witness :
    (∀ c ∈ ([⟨"r1", some Status.FAIL⟩] : List StatusContext),
      c.context.length ≤ 5) ∧
    (∀ c ∈ ([⟨"r2", some Status.PASS⟩, ⟨"r3", some Status.SKIP⟩] :
        List StatusContext), c.context.length ≤ 5) ∧
    ((∀ l ∈ ((SummaryTable.mk "rules.guard" "data.json"
          ⟨true, true, true⟩).report allOk (some Status.FAIL)
          [⟨"r1", some Status.FAIL⟩]
          [⟨"r2", some Status.PASS⟩, ⟨"r3", some Status.SKIP⟩]
          5).1.written, ∀ f c s, l = Line.entryLine f c s →
        f = "rules.guard" ∧ c.length = 5 + 4 ∧
        Line.render l = "rules.guard" ++ "/" ++ c ++ s ∧
        ("rules.guard" ++ "/" ++ c).length =
          ("rules.guard" : String).length + 1 + (5 + 4)) ∧
     (∀ l ∈ ((SummaryTable.mk "rules.guard" "data.json"
          ⟨true, true, true⟩).report_eval allOk Status.PASS
          (EventRecord.mk "root" none
            [EventRecord.mk "a"
              (some (RecordType.RuleCheck ⟨"ruleA", Status.SKIP⟩))
              []])).1.written,
        ∀ f c s, l = Line.entryLine f c s →
        f = "rules.guard" ∧
        c.length = evalLongest (EventRecord.mk "root" none
            [EventRecord.mk "a"
              (some (RecordType.RuleCheck ⟨"ruleA", Status.SKIP⟩))
              []]) + 4 ∧
        Line.render l = "rules.guard" ++ "/" ++ c ++ s ∧
        ("rules.guard" ++ "/" ++ c).length =
          ("rules.guard" : String).length + 1 +
            (evalLongest (EventRecord.mk "root" none
              [EventRecord.mk "a"
                (some (RecordType.RuleCheck ⟨"ruleA", Status.SKIP⟩))
                []]) + 4))) :=
  ⟨by decide, by decide,
    claim6_column_alignment (SummaryTable.mk "rules.guard" "data.json" ⟨true, true, true⟩)
      (some Status.FAIL) Status.PASS
      [⟨"r1", some Status.FAIL⟩]
      [⟨"r2", some Status.PASS⟩, ⟨"r3", some Status.SKIP⟩] 5
      (EventRecord.mk "root" none
        [EventRecord.mk "a"
          (some (RecordType.RuleCheck ⟨"ruleA", Status.SKIP⟩)) []])
      (by decide) (by decide)⟩

end Guard
